import Mathlib

/-
Verification of the scql CQL analysis library.

Strings are modelled as lists of characters (`Str`); the Go sources
operate on ASCII byte strings, and every input appearing in the claims
is ASCII, so character-wise and byte-wise views coincide.

Source files embedded below:
  - pkg/parse/levenshtein.go       (namespace parse)
  - pkg/parse/parse.go             (namespace parse)
  - pkg/parse/error_transform.go   (namespace parse)
  - pkg/schema (schema.go)         (namespace cqlschema)
  - pkg/types (statement.go)       (namespace ctypes)
  - pkg/analyze (validate.go, functions.go, types.go)  (namespace analyze)
  - pkg/hover (docs.go) and pkg/tokenize (tokenize.go) (namespace tokenize)
-/

set_option maxRecDepth 100000

abbrev Str := List Char

def str (s : String) : Str := s.toList

/-- The single-quote character (ASCII 39), used when building messages. -/
def sqc : Char := Char.ofNat 39

/-- Go `unicode.IsSpace` restricted to ASCII: space, tab, newline,
carriage return, vertical tab, form feed. -/
def isGoSpace (c : Char) : Bool :=
  c == ' ' || c == Char.ofNat 9 || c == Char.ofNat 10 ||
  c == Char.ofNat 13 || c == Char.ofNat 11 || c == Char.ofNat 12

/-- Go `strings.TrimSpace` (ASCII inputs). -/
def trimSpace (s : Str) : Str :=
  ((s.dropWhile isGoSpace).reverse.dropWhile isGoSpace).reverse

/-- Go `strings.ToUpper` on one ASCII character. -/
def asciiUpper1 (c : Char) : Char :=
  if 97 ≤ c.toNat ∧ c.toNat ≤ 122 then Char.ofNat (c.toNat - 32) else c

/-- Go `strings.ToUpper` (ASCII inputs). -/
def asciiUpper (s : Str) : Str := s.map asciiUpper1

/-- Go `strings.ToLower` on one ASCII character. -/
def asciiLower1 (c : Char) : Char :=
  if 65 ≤ c.toNat ∧ c.toNat ≤ 90 then Char.ofNat (c.toNat + 32) else c

/-- Go `strings.ToLower` (ASCII inputs). -/
def asciiLower (s : Str) : Str := s.map asciiLower1

namespace parse

/-- `min` of pkg/parse/levenshtein.go lines 134-145: the three-way
minimum used by the dynamic program. -/
def min3 (a b c : Nat) : Nat :=
  if a < b then (if a < c then a else c) else (if b < c then b else c)

/-- `cqlKeywords` of pkg/parse/levenshtein.go lines 8-33, in source order. -/
def cqlKeywords : List Str :=
  [str "SELECT", str "FROM", str "WHERE", str "AND", str "OR", str "IN",
   str "INSERT", str "INTO", str "VALUES",
   str "UPDATE", str "SET", str "DELETE", str "USING", str "TTL",
   str "TIMESTAMP", str "IF", str "EXISTS",
   str "NOT", str "NULL", str "LIMIT", str "ORDER", str "BY", str "ASC",
   str "DESC", str "ALLOW", str "FILTERING",
   str "TOKEN", str "CONTAINS", str "KEY",
   str "CREATE", str "ALTER", str "DROP", str "TRUNCATE", str "TABLE",
   str "KEYSPACE", str "INDEX", str "TYPE",
   str "MATERIALIZED", str "VIEW", str "FUNCTION", str "AGGREGATE",
   str "TRIGGER", str "PRIMARY",
   str "CLUSTERING", str "COMPACT", str "STORAGE", str "WITH",
   str "OPTIONS", str "REPLICATION",
   str "DURABLE", str "WRITES", str "COMMENT", str "STATIC", str "FROZEN",
   str "COUNTER",
   str "GRANT", str "REVOKE", str "ROLE", str "USER", str "PASSWORD",
   str "SUPERUSER", str "NOSUPERUSER",
   str "LOGIN", str "NOLOGIN", str "PERMISSION", str "PERMISSIONS",
   str "ALL", str "ON", str "TO",
   str "ASCII", str "BIGINT", str "BLOB", str "BOOLEAN", str "DATE",
   str "DECIMAL", str "DOUBLE", str "FLOAT",
   str "INET", str "INT", str "SMALLINT", str "TEXT", str "TIME",
   str "TIMEUUID", str "TINYINT", str "UUID",
   str "VARCHAR", str "VARINT", str "LIST", str "MAP", str "SET",
   str "TUPLE",
   str "USE", str "BATCH", str "BEGIN", str "APPLY", str "UNLOGGED",
   str "LOGGED", str "AS", str "DISTINCT",
   str "COUNT", str "JSON", str "CAST"]

/-- Inner-loop body of `levenshteinDistance` (pkg/parse/levenshtein.go
lines 116-126): computes the current DP row beyond its first cell.
`prev` carries `prev[j-1], prev[j], ...`; `cPrev` is `curr[j-1]`; each
new cell is `min(prev[j]+1, curr[j-1]+1, prev[j-1]+cost)`. -/
def dpStep (c : Char) : Str → List Nat → Nat → List Nat
  | y :: ys, pPrev :: pCur :: pRest, cPrev =>
      let cost : Nat := if c = y then 0 else 1
      let cj := min3 (pCur + 1) (cPrev + 1) (pPrev + cost)
      cj :: dpStep c ys (pCur :: pRest) cj
  | _, _, _ => []

/-- Outer loop of `levenshteinDistance` (pkg/parse/levenshtein.go lines
114-128): one pass per character of `s1`, starting each row with
`curr[0] = i`. -/
def dpLoop (s2 : Str) : Str → List Nat → Nat → List Nat
  | [], prev, _ => prev
  | c :: cs, prev, i => dpLoop s2 cs (i :: dpStep c s2 prev i) (i + 1)

/-- `levenshteinDistance` of pkg/parse/levenshtein.go lines 93-131:
early returns for equal/empty inputs, then the two-row dynamic program
with first row `0..len(s2)`, answering `prev[len(s2)]`. -/
def levenshteinDistance (s1 s2 : Str) : Nat :=
  if s1 = s2 then 0
  else if s1 = [] then s2.length
  else if s2 = [] then s1.length
  else (dpLoop s2 s1 (List.range (s2.length + 1)) 1).getLastD 0

/-- Keyword loop of `SuggestKeyword` (pkg/parse/levenshtein.go lines
62-82): scan keywords in order, skipping those of length ≤ 2 and those
whose length differs from the input by more than 2; keep the first
strictly-better match within distance 2. -/
def skLoop (input : Str) : List Str → Str → Nat → Str
  | [], best, _ => best
  | kw :: rest, best, bestDist =>
      if kw.length ≤ 2 then skLoop input rest best bestDist
      else if 2 < ((kw.length : Int) - (input.length : Int)).natAbs then
        skLoop input rest best bestDist
      else
        let d := levenshteinDistance input kw
        if d ≤ 2 ∧ d < bestDist then skLoop input rest kw d
        else skLoop input rest best bestDist

/-- Reference recursion for the Levenshtein distance; the two-row
dynamic program of `levenshteinDistance` is proved below to compute
exactly this function. -/
def lev : Str → Str → Nat
  | [], ys => ys.length
  | x :: xs, [] => (x :: xs).length
  | x :: xs, y :: ys =>
      min3 (lev xs (y :: ys) + 1) (lev (x :: xs) ys + 1)
        (lev xs ys + (if x = y then 0 else 1))

/-- `SuggestKeyword` of pkg/parse/levenshtein.go lines 38-88. -/
def SuggestKeyword (input0 : Str) : Str :=
  let input := asciiUpper (trimSpace input0)
  if input = [] then []
  else if input.length < 4 then []
  else if input ∈ cqlKeywords then []
  else skLoop input cqlKeywords [] 3

/-- A single character edit (insertion, deletion, or substitution at an
arbitrary position). -/
inductive EStep : Str → Str → Prop
  | ins (a : Char) (xs : Str) : EStep xs (a :: xs)
  | del (a : Char) (xs : Str) : EStep (a :: xs) xs
  | sub (a b : Char) (xs : Str) : EStep (a :: xs) (b :: xs)
  | cons (a : Char) {xs ys : Str} : EStep xs ys → EStep (a :: xs) (a :: ys)

/-- `Chain n xs ys`: `ys` is reachable from `xs` by exactly `n` single
character edits. -/
inductive Chain : Nat → Str → Str → Prop
  | refl (xs : Str) : Chain 0 xs xs
  | step {n : Nat} {xs ys zs : Str} :
      EStep xs ys → Chain n ys zs → Chain (n + 1) xs zs

/-- The DP row for left prefix `xs`: the distances from `xs` to
`zs`, `zs ++ [y₁]`, ..., `zs ++ ys` for the characters of `ys`. -/
def rowAux (xs : Str) (zs : Str) : Str → List Nat
  | [] => [lev xs zs]
  | y :: ys => lev xs zs :: rowAux xs (zs ++ [y]) ys

end parse

/-- Shared rendering of the Go format string `Did you mean '%s'?`. -/
def didYouMean (s : Str) : Str :=
  str "Did you mean " ++ [sqc] ++ s ++ [sqc] ++ [Char.ofNat 63]

def digitChar (n : Nat) : Char := Char.ofNat (48 + n)

/-- Decimal rendering of a natural number (fuel-based so that it reduces
in the kernel; the fuel `n + 1` always suffices). -/
def natToStrAux : Nat → Nat → Str
  | 0, _ => []
  | fuel + 1, n =>
      if n < 10 then [digitChar n]
      else natToStrAux fuel (n / 10) ++ [digitChar (n % 10)]

def natToStr (n : Nat) : Str := natToStrAux (n + 1) n

/-- Decimal rendering of a Go `int` (`fmt.Sprintf` with `%d`). -/
def intToStr (i : Int) : Str :=
  if i < 0 then Char.ofNat 45 :: natToStr i.natAbs else natToStr i.natAbs

namespace ctypes

/-- `StatementType` of pkg/types/statement.go (an `int` enumeration in
the source; the constant names are kept). -/
inductive StatementType
  | StatementUnknown
  | StatementSelect
  | StatementInsert
  | StatementUpdate
  | StatementDelete
  | StatementBatch
  | StatementCreateKeyspace
  | StatementAlterKeyspace
  | StatementDropKeyspace
  | StatementCreateTable
  | StatementAlterTable
  | StatementDropTable
  | StatementTruncate
  | StatementCreateIndex
  | StatementDropIndex
  | StatementCreateMaterializedView
  | StatementAlterMaterializedView
  | StatementDropMaterializedView
  | StatementCreateType
  | StatementAlterType
  | StatementDropType
  | StatementCreateFunction
  | StatementDropFunction
  | StatementCreateAggregate
  | StatementDropAggregate
  | StatementCreateTrigger
  | StatementDropTrigger
  | StatementCreateRole
  | StatementAlterRole
  | StatementDropRole
  | StatementCreateUser
  | StatementAlterUser
  | StatementDropUser
  | StatementGrant
  | StatementRevoke
  | StatementListRoles
  | StatementListPermissions
  | StatementUse
  | StatementPruneMaterializedView
deriving DecidableEq

/-- `IsDML` of pkg/types/statement.go lines 330-337. -/
def StatementType.IsDML : StatementType → Bool
  | .StatementSelect => true
  | .StatementInsert => true
  | .StatementUpdate => true
  | .StatementDelete => true
  | .StatementBatch => true
  | _ => false

end ctypes

namespace cqlschema

/-- `Column` of pkg/schema (the declared-type string is named `Typ`
since `Type` is reserved in Lean). -/
structure Column where
  Name : Str
  Typ : Str
  IsStatic : Bool
  IsPartitionKey : Bool
  IsClusteringKey : Bool
  Position : Int
deriving DecidableEq

/-- `Table` of pkg/schema. Go maps are modelled as optional association
lists (`none` = nil map). Fields not consulted by any embedded function
(clustering order, indexes, materialized views, table options) are
omitted. -/
structure Table where
  Name : Str
  Keyspace : Str
  Columns : Option (List (Str × Column))
  ColumnOrder : List Str
  PartitionKey : List Str
  ClusteringKey : List Str
deriving DecidableEq

/-- `Keyspace` of pkg/schema (replication settings and UDT/UDF/UDA maps
omitted: no embedded function consults them). -/
structure Keyspace where
  Name : Str
  Tables : Option (List (Str × Table))
deriving DecidableEq

/-- `Schema` of pkg/schema. -/
structure Schema where
  Keyspaces : Option (List (Str × Keyspace))
deriving DecidableEq

/-- `(*Schema).GetKeyspace` of pkg/schema: nil receiver and nil map both
answer nil. -/
def Schema.GetKeyspace (s : Option Schema) (name : Str) : Option Keyspace :=
  match s with
  | none => none
  | some sc =>
    match sc.Keyspaces with
    | none => none
    | some m => List.lookup name m

/-- `(*Keyspace).GetTable` of pkg/schema. -/
def Keyspace.GetTable (ks : Option Keyspace) (name : Str) : Option Table :=
  match ks with
  | none => none
  | some k =>
    match k.Tables with
    | none => none
    | some m => List.lookup name m

/-- `(*Table).GetColumn` of pkg/schema. -/
def Table.GetColumn (t : Option Table) (name : Str) : Option Column :=
  match t with
  | none => none
  | some tb =>
    match tb.Columns with
    | none => none
    | some m => List.lookup name m

/-- `(*Keyspace).TableNames` of pkg/schema (map iteration order is
modelled by the association-list order). -/
def Keyspace.TableNames (ks : Option Keyspace) : List Str :=
  match ks with
  | none => []
  | some k =>
    match k.Tables with
    | none => []
    | some m => m.map (fun p => p.1)

/-- `(*Schema).KeyspaceNames` of pkg/schema. -/
def Schema.KeyspaceNames (s : Option Schema) : List Str :=
  match s with
  | none => []
  | some sc =>
    match sc.Keyspaces with
    | none => []
    | some m => m.map (fun p => p.1)

/-- `(*Table).AllColumns` of pkg/schema: all columns in definition
order, skipping names missing from the column map. -/
def Table.AllColumns (t : Option Table) : List Column :=
  match t with
  | none => []
  | some tb => tb.ColumnOrder.filterMap (fun n => Table.GetColumn (some tb) n)

end cqlschema

namespace analyze

/-- `SchemaErrorType` of pkg/analyze/types.go (string constants in the
source; the constructor names are the constant values). -/
inductive SchemaErrorType
  | unknown_keyspace
  | unknown_table
  | unknown_column
  | unknown_function
  | type_mismatch
  | function_arg_count
  | function_arg_count_range
deriving DecidableEq

/-- `WarningType` of pkg/analyze/types.go. -/
inductive WarningType
  | missing_partition_key
  | missing_clustering_key
  | allow_filtering_needed
  | allow_filtering_present
  | no_where_clause
  | no_limit
  | large_limit
  | select_star
deriving DecidableEq

/-- `Severity` of pkg/analyze/types.go. -/
inductive Severity
  | error
  | warning
  | info
deriving DecidableEq

/-- `Position` of pkg/analyze/types.go. -/
structure Position where
  Line : Int
  Column : Int
  Offset : Int
deriving DecidableEq

/-- `FunctionCall` of pkg/analyze/types.go (`Name` is stored lowercase
by the extractor). -/
structure FunctionCall where
  Name : Str
  ArgCount : Int
  HasStar : Bool
  Position : Option Position
deriving DecidableEq

/-- `SchemaError` of pkg/analyze/types.go (`Typ` models the Go field
`Type`). -/
structure SchemaError where
  Typ : SchemaErrorType
  Message : Str
  Suggestion : Str
  Object : Str
  Position : Option Position
deriving DecidableEq

/-- `Warning` of pkg/analyze/types.go (`Typ` models the Go field
`Type`). -/
structure Warning where
  Typ : WarningType
  Severity : Severity
  Message : Str
  Suggestion : Str
  Position : Option Position
deriving DecidableEq

/-- `References` of pkg/analyze/types.go. -/
structure References where
  Keyspace : Str
  Table : Str
  Columns : List Str
  SelectColumns : List Str
  WhereColumns : List Str
  UpdateColumns : List Str
  InsertColumns : List Str
  OrderByColumns : List Str
  Functions : List Str
  FunctionCalls : List FunctionCall
  HasAllowFiltering : Bool
  Limit : Int
deriving DecidableEq

/-- `AnalyzeOptions` of pkg/analyze/types.go. -/
structure AnalyzeOptions where
  Schema : Option cqlschema.Schema
  DefaultKeyspace : Str
  WarnOnSelectStar : Bool
  WarnOnNoLimit : Bool
  LargeLimitThreshold : Int
deriving DecidableEq

/-- `FunctionSignature` of pkg/analyze/functions.go (`MaxArgs = -1`
means unlimited). -/
structure FunctionSignature where
  Name : Str
  MinArgs : Int
  MaxArgs : Int
  AllowStar : Bool
deriving DecidableEq

/-- Modelled from the spec: the builtin signature table is built by
`buildFunctionSignatures` from the generated catalogue
`gen/cqldata.GenFunctions`, which is not part of the sources here; per
§4.2 the named overrides of `applySpecialCases` are: count exactly 1
argument or star; token at least 1, unbounded; uuid, now, currentDate,
currentTime, currentTimestamp, currentTimeUUID exactly 0; ttl and
writetime exactly 1; cast exactly 2. Catalogue entries without an
override are not needed by any claim and are left out of the model, so
a `none` lookup here means "not in the modelled table". Keys are
lowercase as in the source. -/
def builtinFunctions (name : Str) : Option FunctionSignature :=
  List.lookup name
    [(str "count", ⟨str "count", 1, 1, true⟩),
     (str "token", ⟨str "token", 1, -1, false⟩),
     (str "uuid", ⟨str "uuid", 0, 0, false⟩),
     (str "now", ⟨str "now", 0, 0, false⟩),
     (str "ttl", ⟨str "ttl", 1, 1, false⟩),
     (str "writetime", ⟨str "writetime", 1, 1, false⟩),
     (str "cast", ⟨str "cast", 2, 2, false⟩),
     (str "currentdate", ⟨str "currentdate", 0, 0, false⟩),
     (str "currenttime", ⟨str "currenttime", 0, 0, false⟩),
     (str "currenttimestamp", ⟨str "currenttimestamp", 0, 0, false⟩),
     (str "currenttimeuuid", ⟨str "currenttimeuuid", 0, 0, false⟩)]

/-- `validateFunctionCall` of pkg/analyze/functions.go lines 140-195. -/
def validateFunctionCall (call : FunctionCall) : Option SchemaError :=
  match builtinFunctions call.Name with
  | none => none
  | some sig =>
    if call.HasStar then
      if ¬ sig.AllowStar then
        some ⟨SchemaErrorType.function_arg_count,
          call.Name ++ str "() does not accept * as argument",
          [], call.Name, call.Position⟩
      else none
    else if sig.MaxArgs = -1 then
      if call.ArgCount < sig.MinArgs then
        some ⟨SchemaErrorType.function_arg_count,
          call.Name ++ str "() requires at least " ++ intToStr sig.MinArgs ++
            str " argument(s), got " ++ intToStr call.ArgCount,
          [], call.Name, call.Position⟩
      else none
    else if sig.MinArgs = sig.MaxArgs then
      if call.ArgCount ≠ sig.MinArgs then
        some ⟨SchemaErrorType.function_arg_count,
          call.Name ++ str "() takes " ++ intToStr sig.MinArgs ++
            str " argument(s), got " ++ intToStr call.ArgCount,
          [], call.Name, call.Position⟩
      else none
    else
      if call.ArgCount < sig.MinArgs ∨ call.ArgCount > sig.MaxArgs then
        some ⟨SchemaErrorType.function_arg_count_range,
          call.Name ++ str "() takes " ++ intToStr sig.MinArgs ++
            str "-" ++ intToStr sig.MaxArgs ++
            str " argument(s), got " ++ intToStr call.ArgCount,
          [], call.Name, call.Position⟩
      else none

/-- `ValidateFunctionCalls` of pkg/analyze/functions.go lines 127-137. -/
def ValidateFunctionCalls (calls : List FunctionCall) : List SchemaError :=
  calls.filterMap validateFunctionCall

end analyze

namespace analyze

/-- `levenshtein` of pkg/analyze/validate.go lines 382-416: the same
dynamic program as pkg/parse (cell recurrence
`min(d[i-1][j]+1, d[i][j-1]+1, d[i-1][j-1]+cost)` on the full matrix,
first row and column `0..n`); the source keeps every row, which does
not change any cell value, so the two-row loop is reused here. Unlike
the pkg/parse copy there is no equal-strings early return. -/
def levenshtein (s1 s2 : Str) : Nat :=
  if s1 = [] then s2.length
  else if s2 = [] then s1.length
  else (parse.dpLoop s2 s1 (List.range (s2.length + 1)) 1).getLastD 0

/-- Candidate loop of `findClosest` (pkg/analyze/validate.go lines
370-376): keep the first candidate strictly closer than the best so
far, starting from threshold 3. -/
def fcLoop (input : Str) : List Str → Str → Nat → Str
  | [], best, _ => best
  | cand :: rest, best, bestDist =>
      let dist := levenshtein input (asciiLower cand)
      if dist < bestDist then fcLoop input rest cand dist
      else fcLoop input rest best bestDist

/-- `findClosest` of pkg/analyze/validate.go lines 365-379. -/
def findClosest (input0 : Str) (candidates : List Str) : Str :=
  fcLoop (asciiLower input0) candidates [] 3

/-- `suggestKeyspace` of pkg/analyze/validate.go lines 328-337. -/
def suggestKeyspace (s : Option cqlschema.Schema) (name : Str) : Str :=
  match s with
  | none => []
  | some _ =>
    let names := cqlschema.Schema.KeyspaceNames s
    let suggestion := findClosest name names
    if suggestion ≠ [] then didYouMean suggestion else []

/-- `suggestTable` of pkg/analyze/validate.go lines 339-348. -/
def suggestTable (ks : Option cqlschema.Keyspace) (name : Str) : Str :=
  match ks with
  | none => []
  | some _ =>
    let names := cqlschema.Keyspace.TableNames ks
    let suggestion := findClosest name names
    if suggestion ≠ [] then didYouMean suggestion else []

/-- `suggestColumn` of pkg/analyze/validate.go lines 350-362. -/
def suggestColumn (tbl : Option cqlschema.Table) (name : Str) : Str :=
  match tbl with
  | none => []
  | some _ =>
    let names := (cqlschema.Table.AllColumns tbl).map (fun col => col.Name)
    let suggestion := findClosest name names
    if suggestion ≠ [] then didYouMean suggestion else []

/-- The warning built by `validateClusteringKeyOrder` for a clustering
column used after a gap (pkg/analyze/validate.go lines 251-256). -/
def ckWarnOf (ckCol : Str) : Warning :=
  ⟨WarningType.missing_clustering_key, Severity.warning,
    str "Clustering column " ++ [sqc] ++ ckCol ++ [sqc] ++
      str " is used without preceding clustering columns",
    str "Include preceding clustering columns in WHERE clause or use ALLOW FILTERING",
    none⟩

/-- Scan of `validateClusteringKeyOrder` (pkg/analyze/validate.go lines
244-258): walk the clustering key in order; a column absent from the
where-set opens a gap; a present column after a gap yields a warning. -/
def ckScan (whereColSet : List Str) : List Str → Bool → List Warning
  | [], _ => []
  | ckCol :: rest, foundGap =>
      if ¬ (whereColSet.contains (asciiLower ckCol)) then
        ckScan whereColSet rest true
      else if foundGap then
        ckWarnOf ckCol :: ckScan whereColSet rest foundGap
      else ckScan whereColSet rest foundGap

/-- `validateClusteringKeyOrder` of pkg/analyze/validate.go lines
241-259. -/
def validateClusteringKeyOrder (tbl : cqlschema.Table)
    (whereColSet : List Str) : List Warning :=
  ckScan whereColSet tbl.ClusteringKey false

/-- The lowercased where-column set of `validatePartitionKey`
(pkg/analyze/validate.go lines 201-204); the Go `map[string]bool` is
modelled by a list queried through `contains`. -/
def whereColSetOf (refs : References) : List Str :=
  refs.WhereColumns.map asciiLower

/-- The missing-partition-key list of `validatePartitionKey`
(pkg/analyze/validate.go lines 207-212). -/
def missingPKOf (refs : References) (tbl : cqlschema.Table) : List Str :=
  tbl.PartitionKey.filter
    (fun pkCol => ¬ ((whereColSetOf refs).contains (asciiLower pkCol)))

/-- `validatePartitionKey` of pkg/analyze/validate.go lines 197-238
(the function appends to `result.Warnings`; the appended list is
returned). -/
def validatePartitionKey (refs : References) (tbl : cqlschema.Table) :
    List Warning :=
  (if missingPKOf refs tbl ≠ [] then
    if (missingPKOf refs tbl).length = tbl.PartitionKey.length then
      [⟨WarningType.missing_partition_key, Severity.error,
        str "Query is missing partition key column(s): " ++
          List.intercalate (str ", ") (missingPKOf refs tbl),
        str "Add partition key columns to WHERE clause or use ALLOW FILTERING",
        none⟩]
    else
      [⟨WarningType.missing_partition_key, Severity.error,
        str "Query is missing partition key column(s): " ++
          List.intercalate (str ", ") (missingPKOf refs tbl),
        str "All partition key columns must be specified",
        none⟩]
  else []) ++
  (if tbl.ClusteringKey ≠ [] ∧ missingPKOf refs tbl = [] then
    validateClusteringKeyOrder tbl (whereColSetOf refs)
  else [])

/-- Table, column and key checks of `validateSchema`
(pkg/analyze/validate.go lines 162-194), after a keyspace has been
resolved. -/
def validateWithKeyspace (refs : References)
    (stmtType : ctypes.StatementType) (ks : cqlschema.Keyspace) :
    List SchemaError × List Warning :=
  match cqlschema.Keyspace.GetTable (some ks) refs.Table with
  | none =>
      ([⟨SchemaErrorType.unknown_table,
         str "Table " ++ [sqc] ++ refs.Table ++ [sqc] ++
           str " does not exist in keyspace " ++ [sqc] ++ ks.Name ++ [sqc],
         suggestTable (some ks) refs.Table, refs.Table, none⟩], [])
  | some tbl =>
      let colErrs := refs.Columns.filterMap (fun colName =>
        if colName = str "*" then none
        else
          match cqlschema.Table.GetColumn (some tbl) colName with
          | some _ => none
          | none =>
              some ⟨SchemaErrorType.unknown_column,
                str "Column " ++ [sqc] ++ colName ++ [sqc] ++
                  str " not found in table " ++ [sqc] ++ tbl.Name ++ [sqc],
                suggestColumn (some tbl) colName, colName, none⟩)
      let pkWarns :=
        if stmtType.IsDML ∧ stmtType ≠ ctypes.StatementType.StatementInsert then
          validatePartitionKey refs tbl
        else []
      (colErrs, pkWarns)

/-- `validateSchema` of pkg/analyze/validate.go lines 136-194: resolve
the keyspace (explicit, else caller default); an unknown explicit
keyspace emits one error and stops; no keyspace context stops silently;
otherwise continue with `validateWithKeyspace`. The pair carries the
appended schema errors and warnings. -/
def validateSchema (refs : References) (stmtType : ctypes.StatementType)
    (s : Option cqlschema.Schema) (defaultKeyspace : Str) :
    List SchemaError × List Warning :=
  if refs.Keyspace ≠ [] then
    match cqlschema.Schema.GetKeyspace s refs.Keyspace with
    | none =>
        ([⟨SchemaErrorType.unknown_keyspace,
           str "Keyspace " ++ [sqc] ++ refs.Keyspace ++ [sqc] ++
             str " does not exist",
           suggestKeyspace s refs.Keyspace, refs.Keyspace, none⟩], [])
    | some ks => validateWithKeyspace refs stmtType ks
  else
    match
      (if defaultKeyspace ≠ [] then
        cqlschema.Schema.GetKeyspace s defaultKeyspace
      else none) with
    | none => ([], [])
    | some ks => validateWithKeyspace refs stmtType ks

/-- `generateWarnings` of pkg/analyze/validate.go lines 262-324 (the
appended warning list, in source order). -/
def generateWarnings (refs : References) (stmtType : ctypes.StatementType)
    (opts : AnalyzeOptions) : List Warning :=
  if stmtType ≠ ctypes.StatementType.StatementSelect then []
  else
    (if opts.WarnOnSelectStar ∧ refs.SelectColumns.contains (str "*") then
      [⟨WarningType.select_star, Severity.info,
        str "SELECT * retrieves all columns",
        str "Consider selecting only needed columns", none⟩]
    else []) ++
    (if opts.WarnOnNoLimit ∧ refs.Limit < 0 then
      [⟨WarningType.no_limit, Severity.info,
        str "Query has no LIMIT clause",
        str "Consider adding LIMIT to avoid fetching too many rows", none⟩]
    else []) ++
    (if opts.LargeLimitThreshold > 0 ∧ refs.Limit > opts.LargeLimitThreshold then
      [⟨WarningType.large_limit, Severity.warning,
        str "LIMIT " ++ intToStr refs.Limit ++ str " may return too many rows",
        str "Consider using a smaller limit (threshold: " ++
          intToStr opts.LargeLimitThreshold ++ str ")", none⟩]
    else []) ++
    (if refs.WhereColumns = [] then
      [⟨WarningType.no_where_clause, Severity.info,
        str "Query has no WHERE clause - will scan entire table",
        str "Add WHERE clause to filter results", none⟩]
    else []) ++
    (if refs.HasAllowFiltering then
      [⟨WarningType.allow_filtering_present, Severity.warning,
        str "Query uses ALLOW FILTERING which may be slow",
        str "Consider restructuring query to avoid ALLOW FILTERING", none⟩]
    else [])

/-- The analysis pipeline of `Analyze` (pkg/analyze/analyze.go lines
90-133) after reference extraction, on the syntax-valid path: apply the
default keyspace, run schema validation when a schema and a table are
present, validate function calls, and generate warnings. The pair
carries `(SchemaErrors, Warnings)` of the result. -/
def analyzeRefs (refs0 : References) (stmtType : ctypes.StatementType)
    (opts : AnalyzeOptions) : List SchemaError × List Warning :=
  let refs :=
    if refs0.Keyspace = [] ∧ opts.DefaultKeyspace ≠ [] then
      { refs0 with Keyspace := opts.DefaultKeyspace }
    else refs0
  let sv :=
    if opts.Schema ≠ none ∧ refs.Table ≠ [] then
      validateSchema refs stmtType opts.Schema opts.DefaultKeyspace
    else ([], [])
  let fe :=
    if refs.FunctionCalls ≠ [] then ValidateFunctionCalls refs.FunctionCalls
    else []
  let gw := generateWarnings refs stmtType opts
  (sv.1 ++ fe, sv.2 ++ gw)

end analyze

namespace tokenize

/-- Keys of the `hover.Keywords` documentation map (pkg/hover/docs.go
lines 28-103), uppercase as in the source. -/
def hoverKeywords : List Str :=
  [str "SELECT", str "INSERT", str "UPDATE", str "DELETE", str "CREATE",
   str "ALTER", str "DROP", str "TRUNCATE", str "USE", str "DESCRIBE",
   str "DESC", str "BEGIN", str "APPLY", str "BATCH", str "GRANT",
   str "REVOKE", str "LIST",
   str "FROM", str "WHERE", str "AND", str "OR", str "IN", str "ORDER",
   str "BY", str "GROUP", str "LIMIT", str "ALLOW", str "FILTERING",
   str "SET", str "INTO", str "VALUES", str "IF", str "EXISTS", str "NOT",
   str "USING", str "TTL", str "TIMESTAMP", str "ASC", str "CONTAINS",
   str "KEY", str "NULL", str "PRIMARY", str "PARTITION", str "CLUSTERING",
   str "STATIC", str "WITH", str "REPLICATION", str "COMPACT",
   str "STORAGE", str "INDEX", str "MATERIALIZED", str "VIEW", str "TABLE",
   str "KEYSPACE", str "TYPE", str "FUNCTION", str "AGGREGATE", str "ROLE",
   str "USER", str "JSON", str "DISTINCT", str "COUNT", str "AS",
   str "TOKEN", str "WRITETIME", str "PER", str "UNLOGGED", str "COUNTER",
   str "FROZEN", str "TUPLE", str "MAP"]

/-- Keys of the `hover.Functions` documentation map (pkg/hover/docs.go
lines 106-174), lowercase as in the source. -/
def hoverFunctions : List Str :=
  [str "uuid", str "now", str "timeuuid", str "currenttimestamp",
   str "currentdate", str "currenttime", str "currenttimeuuid",
   str "token",
   str "todate", str "totimestamp", str "tounixtimestamp", str "dateof",
   str "unixtimestampof", str "mintimeuuid", str "maxtimeuuid",
   str "blobastext", str "textasblob", str "blobasint", str "intasblob",
   str "blobasbigint", str "bigintasblob", str "blobasascii",
   str "asciiasblob", str "blobasboolean", str "booleanasblob",
   str "blobasdouble", str "doubleasblob", str "blobasfloat",
   str "floatasblob", str "blobasinet", str "inetasblob", str "blobasuuid",
   str "uuidasblob", str "blobastimeuuid", str "timeuuidasblob",
   str "blobasvarint", str "varintasblob",
   str "count", str "sum", str "avg", str "min", str "max",
   str "writetime", str "ttl", str "tojson", str "fromjson", str "cast",
   str "collection_count", str "collection_max", str "collection_min"]

/-- Keys of the `hover.Types` documentation map (pkg/hover/docs.go
lines 177-215), lowercase as in the source. -/
def hoverTypes : List Str :=
  [str "int", str "bigint", str "smallint", str "tinyint", str "varint",
   str "float", str "double", str "decimal", str "counter",
   str "text", str "varchar", str "ascii",
   str "uuid", str "timeuuid",
   str "timestamp", str "date", str "time", str "duration",
   str "blob", str "boolean", str "inet",
   str "list", str "set", str "map", str "tuple", str "frozen"]

/-- `hover.IsKeyword` of pkg/hover/docs.go lines 233-236. -/
def IsKeyword (name : Str) : Bool := hoverKeywords.contains (asciiUpper name)

/-- `hover.IsFunction` of pkg/hover/docs.go lines 239-242. -/
def IsFunction (name : Str) : Bool := hoverFunctions.contains (asciiLower name)

/-- `hover.IsType` of pkg/hover/docs.go lines 245-248. -/
def IsType (name : Str) : Bool := hoverTypes.contains (asciiLower name)

/-- `TokenType` of pkg/tokenize (string constants in the source). -/
inductive TokenType
  | keyword
  | function
  | type_
  | stringT
  | number
  | comment
  | identifier
  | operator
  | punctuation
  | partition_key
  | clustering_key
  | column
  | placeholder
deriving DecidableEq

/-- The ANTLR lexical token types consulted by `classifyANTLRToken`,
named after the `parser.CqlLexer*` constants. The source only tests the
`K_*` keyword tokens through the range check of `isKeywordToken`, so
they are one constructor; `OTHER` stands for every remaining type. -/
inductive ALexType
  | LR_BRACKET
  | RR_BRACKET
  | LC_BRACKET
  | RC_BRACKET
  | LS_BRACKET
  | RS_BRACKET
  | COMMA
  | SEMI
  | COLON
  | DOT
  | STAR
  | DIVIDE
  | MODULE
  | PLUS
  | MINUS
  | MINUSMINUS
  | OPERATOR_EQ
  | OPERATOR_LT
  | OPERATOR_GT
  | OPERATOR_LTE
  | OPERATOR_GTE
  | OPERATOR_NEQ
  | STRING_LITERAL
  | CODE_BLOCK
  | DECIMAL_LITERAL
  | FLOAT_LITERAL
  | HEXADECIMAL_LITERAL
  | REAL_LITERAL
  | QMARK
  | UUID
  | DURATION_LITERAL
  | COMMENT_INPUT
  | LINE_COMMENT
  | SPEC_MYSQL_COMMENT
  | OBJECT_NAME
  | K_TOKEN
  | OTHER
deriving DecidableEq

/-- `isKeywordToken` of pkg/tokenize: the `K_ADD ..
K_VECTOR_SEARCH_INDEXING` range check. -/
def isKeywordToken (t : ALexType) : Bool := t = ALexType.K_TOKEN

/-- Go `set[strings.ToLower(x)]` on a possibly-nil set: `m != nil &&
m[k]`. -/
def setHas (m : Option (List Str)) (k : Str) : Bool :=
  match m with
  | none => false
  | some l => l.contains k

/-- `classifyANTLRToken` of pkg/tokenize lines 353-487. Inputs: the
token lexical type, whether it is on the hidden channel, its text, the
whole query, the inclusive stop offset, and the three optional semantic
sets (already lowercased by `makeSet`). -/
def classifyANTLRToken (tokType : ALexType) (hiddenChannel : Bool)
    (text : Str) (input : Str) (stop : Nat)
    (partitionKeys clusteringKeys columns : Option (List Str)) : TokenType :=
  let lowerText := asciiLower text
  if hiddenChannel then
    if (str "--").isPrefixOf text ∨ (str "//").isPrefixOf text ∨
        (str "/*").isPrefixOf text then
      TokenType.comment
    else TokenType.identifier
  else if tokType ∈ [ALexType.LR_BRACKET, ALexType.RR_BRACKET,
      ALexType.LC_BRACKET, ALexType.RC_BRACKET, ALexType.LS_BRACKET,
      ALexType.RS_BRACKET, ALexType.COMMA, ALexType.SEMI, ALexType.COLON,
      ALexType.DOT] then
    TokenType.punctuation
  else if tokType ∈ [ALexType.STAR, ALexType.DIVIDE, ALexType.MODULE,
      ALexType.PLUS, ALexType.MINUS, ALexType.MINUSMINUS,
      ALexType.OPERATOR_EQ, ALexType.OPERATOR_LT, ALexType.OPERATOR_GT,
      ALexType.OPERATOR_LTE, ALexType.OPERATOR_GTE,
      ALexType.OPERATOR_NEQ] then
    TokenType.operator
  else if tokType = ALexType.STRING_LITERAL ∨ tokType = ALexType.CODE_BLOCK then
    TokenType.stringT
  else if tokType ∈ [ALexType.DECIMAL_LITERAL, ALexType.FLOAT_LITERAL,
      ALexType.HEXADECIMAL_LITERAL, ALexType.REAL_LITERAL] then
    TokenType.number
  else if tokType = ALexType.QMARK then TokenType.placeholder
  else if tokType = ALexType.UUID then TokenType.identifier
  else if tokType = ALexType.DURATION_LITERAL then TokenType.number
  else if tokType ∈ [ALexType.COMMENT_INPUT, ALexType.LINE_COMMENT,
      ALexType.SPEC_MYSQL_COMMENT] then
    TokenType.comment
  else if tokType = ALexType.OBJECT_NAME then
    if setHas partitionKeys lowerText then TokenType.partition_key
    else if setHas clusteringKeys lowerText then TokenType.clustering_key
    else if setHas columns lowerText then TokenType.column
    else TokenType.identifier
  else
    let afterToken := trimSpace (input.drop (stop + 1))
    if afterToken ≠ [] ∧ afterToken.headD ' ' = '(' then
      if IsFunction lowerText then TokenType.function
      else TokenType.function
    else if IsType lowerText then TokenType.type_
    else if IsKeyword lowerText then
      if setHas partitionKeys lowerText then TokenType.partition_key
      else if setHas clusteringKeys lowerText then TokenType.clustering_key
      else if setHas columns lowerText then TokenType.column
      else TokenType.keyword
    else if isKeywordToken tokType then
      if setHas partitionKeys lowerText then TokenType.partition_key
      else if setHas clusteringKeys lowerText then TokenType.clustering_key
      else if setHas columns lowerText then TokenType.column
      else TokenType.identifier
    else TokenType.identifier

end tokenize

namespace parse

/-- The leftmost capture of the regular expressions
`<literal> + '([^']+)'` used by pkg/parse (patterns `mismatched input`,
`extraneous input`, `no viable alternative at input`): at each position
try to match the literal prefix (which ends in a quote), then capture a
nonempty run of non-quote characters closed by a quote; otherwise move
one character right. -/
def captureAfter (pat : Str) : Str → Option Str
  | [] => none
  | c :: rest =>
      if pat.isPrefixOf (c :: rest) then
        let after := (c :: rest).drop pat.length
        let cap := after.takeWhile (fun ch => ch != sqc)
        if cap ≠ [] ∧ [sqc].isPrefixOf (after.drop cap.length) then some cap
        else captureAfter pat rest
      else captureAfter pat rest

/-- Go `strings.Fields` (split on whitespace runs), with an explicit
word accumulator. -/
def fieldsAux : Str → Str → List Str
  | [], cur => if cur = [] then [] else [cur.reverse]
  | c :: rest, cur =>
      if isGoSpace c then
        if cur = [] then fieldsAux rest []
        else cur.reverse :: fieldsAux rest []
      else fieldsAux rest (c :: cur)

def fields (s : Str) : List Str := fieldsAux s []

/-- Go `strings.TrimRight` with a character cutset. -/
def trimRightChars (cutset : List Char) (s : Str) : Str :=
  (s.reverse.dropWhile (fun c => cutset.contains c)).reverse

/-- Go `strings.TrimLeft` with a character cutset. -/
def trimLeftChars (cutset : List Char) (s : Str) : Str :=
  s.dropWhile (fun c => cutset.contains c)

/-- The punctuation cutset `;,()[]{}=<>!@#$%^&*` of pkg/parse/parse.go
lines 112 and 124. -/
def punctCutset : List Char := str ";,()[]\x7b\x7d=<>!@#$%^&*"

/-- Fallback word scan of `suggestKeywordFromError`
(pkg/parse/parse.go lines 119-144): walk the whitespace-split words of
the query; trim punctuation; skip words that are already keywords; the
first word with a keyword suggestion answers `Did you mean ...`. -/
def scanQueryWords : List Str → Str
  | [] => []
  | w0 :: rest =>
      let w := trimLeftChars [Char.ofNat 40] (trimRightChars punctCutset w0)
      if cqlKeywords.contains (asciiUpper w) then scanQueryWords rest
      else
        let suggestion := SuggestKeyword w
        if suggestion ≠ [] then didYouMean suggestion
        else scanQueryWords rest

/-- `suggestKeywordFromError` of pkg/parse/parse.go lines 87-147: try
the offending token of a `mismatched input`/`extraneous input` message,
then the trimmed last word of a `no viable alternative` message, then
the word scan over the query. A pattern match whose suggestion is empty
falls through to the next stage, as in the source loop. -/
def suggestKeywordFromError (msg input : Str) : Str :=
  let try1 :=
    match captureAfter (str "mismatched input " ++ [sqc]) msg with
    | some token => SuggestKeyword token
    | none => []
  if try1 ≠ [] then didYouMean try1
  else
    let try2 :=
      match captureAfter (str "extraneous input " ++ [sqc]) msg with
      | some token => SuggestKeyword token
      | none => []
    if try2 ≠ [] then didYouMean try2
    else
      let try3 :=
        match captureAfter (str "no viable alternative at input " ++ [sqc]) msg with
        | some cap =>
            let ws := fields cap
            if ws ≠ [] then
              SuggestKeyword (trimRightChars punctCutset (ws.getLastD []))
            else []
        | none => []
      if try3 ≠ [] then didYouMean try3
      else scanQueryWords (fields input)

end parse

namespace fixtures

open cqlschema analyze

/-- The column `id uuid` (partition key) of the spec example schema. -/
def idCol : Column :=
  { Name := str "id", Typ := str "uuid", IsStatic := false,
    IsPartitionKey := true, IsClusteringKey := false, Position := 0 }

/-- The column `name text` of the spec example schema. -/
def nameCol : Column :=
  { Name := str "name", Typ := str "text", IsStatic := false,
    IsPartitionKey := false, IsClusteringKey := false, Position := 0 }

/-- The table `users` of the spec example schema
`\x7bks: \x7busers: \x7bcolumns:[id uuid pk, name text]\x7d\x7d\x7d`. -/
def usersTable : Table :=
  { Name := str "users", Keyspace := str "ks",
    Columns := some [(str "id", idCol), (str "name", nameCol)],
    ColumnOrder := [str "id", str "name"],
    PartitionKey := [str "id"], ClusteringKey := [] }

def usersKeyspace : Keyspace :=
  { Name := str "ks", Tables := some [(str "users", usersTable)] }

def usersSchema : Schema :=
  { Keyspaces := some [(str "ks", usersKeyspace)] }

/-- Options as produced by `DefaultOptions` with the example schema
attached. -/
def usersOpts : AnalyzeOptions :=
  { Schema := some usersSchema, DefaultKeyspace := [],
    WarnOnSelectStar := false, WarnOnNoLimit := false,
    LargeLimitThreshold := 0 }

/-- The reference set extracted from
`SELECT * FROM ks.users WHERE name = 'x'`. -/
def refsWhereName : References :=
  { Keyspace := str "ks", Table := str "users",
    Columns := [str "name"], SelectColumns := [str "*"],
    WhereColumns := [str "name"], UpdateColumns := [],
    InsertColumns := [], OrderByColumns := [], Functions := [],
    FunctionCalls := [], HasAllowFiltering := false, Limit := -1 }

/-- The reference set extracted from
`SELECT * FROM ks.users WHERE id = 1`. -/
def refsWhereId : References :=
  { Keyspace := str "ks", Table := str "users",
    Columns := [str "id"], SelectColumns := [str "*"],
    WhereColumns := [str "id"], UpdateColumns := [],
    InsertColumns := [], OrderByColumns := [], Functions := [],
    FunctionCalls := [], HasAllowFiltering := false, Limit := -1 }

/-- A table with partition key `p` and clustering keys `(a, b, c)` for
the clustering-gap example. -/
def ckTable : Table :=
  { Name := str "events", Keyspace := str "ks",
    Columns := some
      [(str "p", { Name := str "p", Typ := str "uuid", IsStatic := false,
                   IsPartitionKey := true, IsClusteringKey := false,
                   Position := 0 }),
       (str "a", { Name := str "a", Typ := str "int", IsStatic := false,
                   IsPartitionKey := false, IsClusteringKey := true,
                   Position := 1 }),
       (str "b", { Name := str "b", Typ := str "int", IsStatic := false,
                   IsPartitionKey := false, IsClusteringKey := true,
                   Position := 2 }),
       (str "c", { Name := str "c", Typ := str "int", IsStatic := false,
                   IsPartitionKey := false, IsClusteringKey := true,
                   Position := 3 })],
    ColumnOrder := [str "p", str "a", str "b", str "c"],
    PartitionKey := [str "p"],
    ClusteringKey := [str "a", str "b", str "c"] }

/-- References restricting `p`, `a` and `c` (but not `b`) in WHERE. -/
def refsAC : References :=
  { Keyspace := str "ks", Table := str "events",
    Columns := [str "p", str "a", str "c"], SelectColumns := [str "*"],
    WhereColumns := [str "p", str "a", str "c"], UpdateColumns := [],
    InsertColumns := [], OrderByColumns := [], Functions := [],
    FunctionCalls := [], HasAllowFiltering := false, Limit := -1 }

/-- References restricting `p`, `a` and `b` in WHERE. -/
def refsAB : References :=
  { Keyspace := str "ks", Table := str "events",
    Columns := [str "p", str "a", str "b"], SelectColumns := [str "*"],
    WhereColumns := [str "p", str "a", str "b"], UpdateColumns := [],
    InsertColumns := [], OrderByColumns := [], Functions := [],
    FunctionCalls := [], HasAllowFiltering := false, Limit := -1 }

/-- A schema whose only keyspace is named `bbb`, for the
suggestion-threshold counterexample. -/
def bbbSchema : Schema :=
  { Keyspaces := some [(str "bbb",
      { Name := str "bbb", Tables := some [] })] }

/-- References naming the unknown keyspace `aaa` (edit distance exactly
3 from `bbb`). -/
def refsAaa : References :=
  { Keyspace := str "aaa", Table := str "t",
    Columns := [], SelectColumns := [], WhereColumns := [],
    UpdateColumns := [], InsertColumns := [], OrderByColumns := [],
    Functions := [], FunctionCalls := [], HasAllowFiltering := false,
    Limit := -1 }

end fixtures

namespace parse

theorem min3_cases (a b c : Nat) :
    min3 a b c = a ∨ min3 a b c = b ∨ min3 a b c = c := by
  unfold min3; split_ifs <;> omega

theorem min3_le1 (a b c : Nat) : min3 a b c ≤ a := by
  unfold min3; split_ifs <;> omega

theorem min3_le2 (a b c : Nat) : min3 a b c ≤ b := by
  unfold min3; split_ifs <;> omega

theorem min3_le3 (a b c : Nat) : min3 a b c ≤ c := by
  unfold min3; split_ifs <;> omega

theorem min3_eq_min (a b c : Nat) : min3 a b c = min a (min b c) := by
  unfold min3; split_ifs <;> omega

theorem lev_nil_left (ys : Str) : lev [] ys = ys.length := by
  cases ys <;> simp [lev]

theorem lev_nil_right (xs : Str) : lev xs [] = xs.length := by
  cases xs <;> simp [lev]

theorem lev_cons_cons (x : Char) (xs : Str) (y : Char) (ys : Str) :
    lev (x :: xs) (y :: ys) =
      min3 (lev xs (y :: ys) + 1) (lev (x :: xs) ys + 1)
        (lev xs ys + (if x = y then 0 else 1)) := by
  simp [lev]

theorem lev_self (xs : Str) : lev xs xs = 0 := by
  induction xs with
  | nil => simp [lev]
  | cons x xs ih =>
    rw [lev_cons_cons]
    simp [ih]
    have h := min3_le3 (lev xs (x :: xs) + 1) (lev (x :: xs) xs + 1) 0
    omega

theorem lev_le_del (x : Char) (xs zs : Str) :
    lev (x :: xs) zs ≤ lev xs zs + 1 := by
  cases zs with
  | nil => simp [lev_nil_right]
  | cons z zs => rw [lev_cons_cons]; exact min3_le1 _ _ _

theorem lev_le_ins (xs : Str) (z : Char) (zs : Str) :
    lev xs (z :: zs) ≤ lev xs zs + 1 := by
  cases xs with
  | nil => simp [lev_nil_left]
  | cons x xs => rw [lev_cons_cons]; exact min3_le2 _ _ _

theorem lev_le_subc (x : Char) (xs : Str) (y : Char) (ys : Str) :
    lev (x :: xs) (y :: ys) ≤ lev xs ys + (if x = y then 0 else 1) := by
  rw [lev_cons_cons]; exact min3_le3 _ _ _

theorem lev_dropl (a : Char) (xs : Str) :
    ∀ zs : Str, lev xs zs ≤ lev (a :: xs) zs + 1 := by
  intro zs
  induction zs with
  | nil => simp [lev_nil_right]; omega
  | cons z zs ih =>
    rw [lev_cons_cons a xs z zs]
    rcases min3_cases (lev xs (z :: zs) + 1) (lev (a :: xs) zs + 1)
      (lev xs zs + (if a = z then 0 else 1)) with h | h | h <;> rw [h]
    · omega
    · have h2 := lev_le_ins xs z zs
      omega
    · have h2 := lev_le_ins xs z zs
      omega

theorem lev_sub_rel (a b : Char) (xs : Str) :
    ∀ zs : Str, lev (a :: xs) zs ≤ lev (b :: xs) zs + 1 := by
  intro zs
  induction zs with
  | nil => simp [lev_nil_right]
  | cons z zs ih =>
    rw [lev_cons_cons b xs z zs]
    have hc1 : (if a = z then (0 : Nat) else 1) ≤ 1 := by split <;> omega
    rcases min3_cases (lev xs (z :: zs) + 1) (lev (b :: xs) zs + 1)
      (lev xs zs + (if b = z then 0 else 1)) with h | h | h <;> rw [h]
    · have h2 := lev_le_del a xs (z :: zs)
      omega
    · have h2 := lev_le_ins (a :: xs) z zs
      omega
    · have h2 := lev_le_subc a xs z zs
      omega

theorem estep_lev_le {xs ys : Str} (h : EStep xs ys) :
    ∀ zs : Str, lev xs zs ≤ lev ys zs + 1 := by
  induction h with
  | ins a l => exact fun zs => lev_dropl a l zs
  | del a l => exact fun zs => lev_le_del a l zs
  | sub a b l => exact fun zs => lev_sub_rel a b l zs
  | cons a h ih =>
    rename_i xs' ys'
    intro zs
    induction zs with
    | nil =>
      have h0 := ih []
      simp [lev_nil_right] at *
      omega
    | cons z zs ihz =>
      rw [lev_cons_cons a ys' z zs]
      rcases min3_cases (lev ys' (z :: zs) + 1) (lev (a :: ys') zs + 1)
        (lev ys' zs + (if a = z then 0 else 1)) with hm | hm | hm <;> rw [hm]
      · have h2 := lev_le_del a xs' (z :: zs)
        have h3 := ih (z :: zs)
        omega
      · have h2 := lev_le_ins (a :: xs') z zs
        omega
      · have h2 := lev_le_subc a xs' z zs
        have h3 := ih zs
        omega

theorem chain_lev_le {n : Nat} {xs ys : Str} (h : Chain n xs ys) :
    lev xs ys ≤ n := by
  induction h with
  | refl xs => simp [lev_self]
  | step hs hc ih =>
    rename_i n' xs' ys' zs'
    have h2 := estep_lev_le hs zs'
    omega

theorem chain_append {m n : Nat} {xs ys zs : Str}
    (h1 : Chain m xs ys) (h2 : Chain n ys zs) : Chain (m + n) xs zs := by
  induction h1 with
  | refl _ => simpa using h2
  | step hs hc ih =>
    rename_i m' as bs cs
    have h3 := Chain.step hs (ih h2)
    have e : m' + n + 1 = m' + 1 + n := by omega
    rwa [e] at h3

theorem chain_cons_compat {n : Nat} {xs ys : Str} (a : Char)
    (h : Chain n xs ys) : Chain n (a :: xs) (a :: ys) := by
  induction h with
  | refl _ => exact Chain.refl _
  | step hs hc ih => exact Chain.step (EStep.cons a hs) ih

theorem chain_nil_left : ∀ ys : Str, Chain ys.length [] ys := by
  intro ys
  induction ys with
  | nil => exact Chain.refl []
  | cons y ys ih =>
    have h := Chain.step (EStep.ins y []) (chain_cons_compat y ih)
    simpa using h

theorem chain_nil_right : ∀ xs : Str, Chain xs.length xs [] := by
  intro xs
  induction xs with
  | nil => exact Chain.refl []
  | cons x xs ih =>
    have h := Chain.step (EStep.del x xs) ih
    simpa using h

theorem lev_chain : ∀ xs ys : Str, Chain (lev xs ys) xs ys := by
  intro xs
  induction xs with
  | nil =>
    intro ys
    rw [lev_nil_left]
    exact chain_nil_left ys
  | cons x xs ihx =>
    intro ys
    induction ys with
    | nil =>
      rw [lev_nil_right]
      exact chain_nil_right (x :: xs)
    | cons y ys ihy =>
      rw [lev_cons_cons]
      rcases min3_cases (lev xs (y :: ys) + 1) (lev (x :: xs) ys + 1)
        (lev xs ys + (if x = y then 0 else 1)) with h | h | h <;> rw [h]
      · exact Chain.step (EStep.del x xs) (ihx (y :: ys))
      · exact chain_append ihy (Chain.step (EStep.ins y ys) (Chain.refl _))
      · by_cases hxy : x = y
        · subst hxy
          simpa using chain_cons_compat x (ihx ys)
        · simp only [if_neg hxy]
          exact Chain.step (EStep.sub x y xs) (chain_cons_compat y (ihx ys))

theorem lev_triangle (xs ys zs : Str) :
    lev xs zs ≤ lev xs ys + lev ys zs :=
  chain_lev_le (chain_append (lev_chain xs ys) (lev_chain ys zs))

theorem lev_comm : ∀ xs ys : Str, lev xs ys = lev ys xs := by
  intro xs
  induction xs with
  | nil => intro ys; rw [lev_nil_left, lev_nil_right]
  | cons x xs ihx =>
    intro ys
    induction ys with
    | nil => rw [lev_nil_left, lev_nil_right]
    | cons y ys ihy =>
      rw [lev_cons_cons, lev_cons_cons, ihx (y :: ys), ihy, ihx ys]
      have hc : (if x = y then (0 : Nat) else 1) = (if y = x then 0 else 1) := by
        by_cases h : x = y
        · simp [h]
        · simp [h, Ne.symm h]
      rw [hc, min3_eq_min, min3_eq_min, min_left_comm]

theorem lev_eq_zero_iff : ∀ xs ys : Str, lev xs ys = 0 ↔ xs = ys := by
  intro xs
  induction xs with
  | nil =>
    intro ys
    rw [lev_nil_left]
    simp [eq_comm, List.length_eq_zero]
  | cons x xs ihx =>
    intro ys
    cases ys with
    | nil => simp [lev_nil_right]
    | cons y ys =>
      constructor
      · intro h
        rw [lev_cons_cons] at h
        rcases min3_cases (lev xs (y :: ys) + 1) (lev (x :: xs) ys + 1)
          (lev xs ys + (if x = y then 0 else 1)) with hm | hm | hm <;>
          rw [hm] at h
        · omega
        · omega
        · by_cases hxy : x = y
          · rw [if_pos hxy] at h
            have h2 := (ihx ys).mp (by omega)
            rw [hxy, h2]
          · rw [if_neg hxy] at h
            omega
      · intro h
        rw [h]
        exact lev_self _

theorem estep_ins_last : ∀ (l : Str) (a : Char), EStep l (l ++ [a]) := by
  intro l a
  induction l with
  | nil => simpa using EStep.ins a []
  | cons c l ih => simpa using EStep.cons c ih

theorem estep_del_last : ∀ (l : Str) (a : Char), EStep (l ++ [a]) l := by
  intro l a
  induction l with
  | nil => simpa using EStep.del a []
  | cons c l ih => simpa using EStep.cons c ih

theorem estep_sub_last : ∀ (l : Str) (a b : Char),
    EStep (l ++ [a]) (l ++ [b]) := by
  intro l a b
  induction l with
  | nil => simpa using EStep.sub a b []
  | cons c l ih => simpa using EStep.cons c ih

theorem estep_snoc {xs ys : Str} (h : EStep xs ys) :
    ∀ a : Char, EStep (xs ++ [a]) (ys ++ [a]) := by
  induction h with
  | ins b l => intro a; simpa using EStep.ins b (l ++ [a])
  | del b l => intro a; simpa using EStep.del b (l ++ [a])
  | sub b c l => intro a; simpa using EStep.sub b c (l ++ [a])
  | cons c h ih => intro a; simpa using EStep.cons c (ih a)

theorem estep_reverse {xs ys : Str} (h : EStep xs ys) :
    EStep xs.reverse ys.reverse := by
  induction h with
  | ins a l => simpa using estep_ins_last l.reverse a
  | del a l => simpa using estep_del_last l.reverse a
  | sub a b l => simpa using estep_sub_last l.reverse a b
  | cons a h ih => simpa using estep_snoc ih a

theorem chain_reverse {n : Nat} {xs ys : Str} (h : Chain n xs ys) :
    Chain n xs.reverse ys.reverse := by
  induction h with
  | refl _ => exact Chain.refl _
  | step hs hc ih => exact Chain.step (estep_reverse hs) ih

theorem lev_reverse (xs ys : Str) : lev xs.reverse ys.reverse = lev xs ys := by
  apply Nat.le_antisymm
  · exact chain_lev_le (chain_reverse (lev_chain xs ys))
  · have h := chain_lev_le (chain_reverse (lev_chain xs.reverse ys.reverse))
    simpa using h

/-- The Levenshtein recurrence at the right-hand end of both strings:
this is the cell update used by the dynamic program. -/
theorem lev_snoc_snoc (xs zs : Str) (c y : Char) :
    lev (xs ++ [c]) (zs ++ [y]) =
      min3 (lev xs (zs ++ [y]) + 1) (lev (xs ++ [c]) zs + 1)
        (lev xs zs + (if c = y then 0 else 1)) := by
  have e1 : lev (xs ++ [c]) (zs ++ [y]) =
      lev (c :: xs.reverse) (y :: zs.reverse) := by
    have h := lev_reverse (c :: xs.reverse) (y :: zs.reverse)
    simpa using h
  have e2 : lev xs.reverse (y :: zs.reverse) = lev xs (zs ++ [y]) := by
    have h := lev_reverse xs (zs ++ [y])
    simpa using h
  have e3 : lev (c :: xs.reverse) zs.reverse = lev (xs ++ [c]) zs := by
    have h := lev_reverse (xs ++ [c]) zs
    simpa using h
  have e4 : lev xs.reverse zs.reverse = lev xs zs := lev_reverse xs zs
  rw [e1, lev_cons_cons, e2, e3, e4]

theorem estep_length {xs ys : Str} (h : EStep xs ys) :
    xs.length ≤ ys.length + 1 ∧ ys.length ≤ xs.length + 1 := by
  induction h with
  | ins a l => simp; omega
  | del a l => simp; omega
  | sub a b l => simp
  | cons a h ih => simp; omega

theorem chain_length {n : Nat} {xs ys : Str} (h : Chain n xs ys) :
    xs.length ≤ ys.length + n ∧ ys.length ≤ xs.length + n := by
  induction h with
  | refl _ => simp
  | step hs hc ih =>
    have h2 := estep_length hs
    omega

theorem lev_length_bound (xs ys : Str) :
    xs.length ≤ ys.length + lev xs ys ∧ ys.length ≤ xs.length + lev xs ys :=
  chain_length (lev_chain xs ys)

theorem rowAux_head_tail (xs zs ys : Str) :
    rowAux xs zs ys = lev xs zs :: (rowAux xs zs ys).tail := by
  cases ys <;> rfl

theorem rowAux_ne_nil (xs zs ys : Str) : rowAux xs zs ys ≠ [] := by
  cases ys <;> simp [rowAux]

theorem dpStep_spec (c : Char) (xs : Str) :
    ∀ (ys zs : Str),
      dpStep c ys (rowAux xs zs ys) (lev (xs ++ [c]) zs) =
        (rowAux (xs ++ [c]) zs ys).tail := by
  intro ys
  induction ys with
  | nil => intro zs; simp [rowAux, dpStep]
  | cons y ys ih =>
    intro zs
    show dpStep c (y :: ys) (lev xs zs :: rowAux xs (zs ++ [y]) ys)
        (lev (xs ++ [c]) zs) = (rowAux (xs ++ [c]) zs (y :: ys)).tail
    rw [rowAux_head_tail xs (zs ++ [y]) ys]
    show (min3 (lev xs (zs ++ [y]) + 1) (lev (xs ++ [c]) zs + 1)
          (lev xs zs + (if c = y then 0 else 1))) ::
        dpStep c ys (lev xs (zs ++ [y]) :: (rowAux xs (zs ++ [y]) ys).tail)
          (min3 (lev xs (zs ++ [y]) + 1) (lev (xs ++ [c]) zs + 1)
            (lev xs zs + (if c = y then 0 else 1))) =
        (rowAux (xs ++ [c]) zs (y :: ys)).tail
    rw [← rowAux_head_tail xs (zs ++ [y]) ys, ← lev_snoc_snoc xs zs c y,
      ih (zs ++ [y])]
    show lev (xs ++ [c]) (zs ++ [y]) :: (rowAux (xs ++ [c]) (zs ++ [y]) ys).tail
        = (rowAux (xs ++ [c]) zs (y :: ys)).tail
    rw [← rowAux_head_tail (xs ++ [c]) (zs ++ [y]) ys]
    rfl

theorem dpLoop_spec (s2 : Str) :
    ∀ (cs xs : Str),
      dpLoop s2 cs (rowAux xs [] s2) (xs.length + 1) =
        rowAux (xs ++ cs) [] s2 := by
  intro cs
  induction cs with
  | nil => intro xs; simp [dpLoop]
  | cons c cs ih =>
    intro xs
    show dpLoop s2 cs
        ((xs.length + 1) :: dpStep c s2 (rowAux xs [] s2) (xs.length + 1))
        (xs.length + 1 + 1) = rowAux (xs ++ c :: cs) [] s2
    have hl : xs.length + 1 = lev (xs ++ [c]) [] := by
      simp [lev_nil_right]
    rw [hl, dpStep_spec c xs s2 [], ← rowAux_head_tail (xs ++ [c]) [] s2]
    have hi : lev (xs ++ [c]) [] + 1 = (xs ++ [c]).length + 1 := by
      simp [lev_nil_right]
    rw [hi, ih (xs ++ [c])]
    simp

theorem rowAux_range :
    ∀ (ys zs : Str), rowAux [] zs ys = List.range' zs.length (ys.length + 1) := by
  intro ys
  induction ys with
  | nil => intro zs; simp [rowAux, lev_nil_left]
  | cons y ys ih =>
    intro zs
    rw [List.range'_succ]
    show lev [] zs :: rowAux [] (zs ++ [y]) ys =
      zs.length :: List.range' (zs.length + 1) (ys.length + 1)
    rw [lev_nil_left, ih (zs ++ [y])]
    simp

theorem getLastD_irrel (l : List Nat) (d1 d2 : Nat) (h : l ≠ []) :
    l.getLastD d1 = l.getLastD d2 := by
  cases l with
  | nil => exact absurd rfl h
  | cons a l => rw [List.getLastD_cons, List.getLastD_cons]

theorem rowAux_getLastD (xs : Str) :
    ∀ (ys zs : Str), (rowAux xs zs ys).getLastD 0 = lev xs (zs ++ ys) := by
  intro ys
  induction ys with
  | nil => intro zs; simp [rowAux]
  | cons y ys ih =>
    intro zs
    show (lev xs zs :: rowAux xs (zs ++ [y]) ys).getLastD 0 =
      lev xs (zs ++ y :: ys)
    rw [List.getLastD_cons,
      getLastD_irrel _ _ 0 (rowAux_ne_nil xs (zs ++ [y]) ys), ih (zs ++ [y])]
    simp

/-- The two-row dynamic program of the Go source computes the reference
Levenshtein distance. -/
theorem levenshteinDistance_eq_lev (s1 s2 : Str) :
    levenshteinDistance s1 s2 = lev s1 s2 := by
  unfold levenshteinDistance
  split_ifs with h1 h2 h3
  · rw [h1, lev_self]
  · rw [h2, lev_nil_left]
  · rw [h3, lev_nil_right]
  · have hr : List.range (s2.length + 1) = rowAux [] [] s2 := by
      rw [rowAux_range s2 []]
      simp [List.range_eq_range']
    rw [hr]
    have hspec := dpLoop_spec s2 s1 []
    simp only [List.length_nil, Nat.zero_add, List.nil_append] at hspec
    rw [hspec, rowAux_getLastD s1 s2 []]
    simp

theorem levenshteinDistance_comm (a b : Str) :
    levenshteinDistance a b = levenshteinDistance b a := by
  rw [levenshteinDistance_eq_lev, levenshteinDistance_eq_lev, lev_comm]

theorem levenshteinDistance_eq_zero_iff (a b : Str) :
    levenshteinDistance a b = 0 ↔ a = b := by
  rw [levenshteinDistance_eq_lev]; exact lev_eq_zero_iff a b

theorem levenshteinDistance_triangle (a b c : Str) :
    levenshteinDistance a c ≤
      levenshteinDistance a b + levenshteinDistance b c := by
  rw [levenshteinDistance_eq_lev, levenshteinDistance_eq_lev,
    levenshteinDistance_eq_lev]
  exact lev_triangle a b c

theorem skLoop_locked (input k : Str) (hk1 : levenshteinDistance input k = 1) :
    ∀ kws : List Str,
      (∀ kw ∈ kws, kw ≠ k → 2 ≤ levenshteinDistance input kw) →
      skLoop input kws k 1 = k := by
  intro kws
  induction kws with
  | nil => intro _; rfl
  | cons kw rest ih =>
    intro h
    have hrest : ∀ kw2 ∈ rest, kw2 ≠ k → 2 ≤ levenshteinDistance input kw2 :=
      fun kw2 hm hne => h kw2 (List.mem_cons_of_mem kw hm) hne
    unfold skLoop
    split_ifs with hs1 hs2
    · exact ih hrest
    · exact ih hrest
    · show (if levenshteinDistance input kw ≤ 2 ∧ levenshteinDistance input kw < 1
          then skLoop input rest kw (levenshteinDistance input kw)
          else skLoop input rest k 1) = k
      have hneg : ¬ (levenshteinDistance input kw ≤ 2 ∧
          levenshteinDistance input kw < 1) := by
        by_cases he : kw = k
        · rw [he, hk1]; omega
        · have := h kw (List.mem_cons_self kw rest) he
          omega
      rw [if_neg hneg]
      exact ih hrest

theorem skLoop_finds (input k : Str) (hk1 : levenshteinDistance input k = 1)
    (hilen : 4 ≤ input.length) :
    ∀ (kws : List Str) (best : Str) (bestDist : Nat),
      k ∈ kws →
      (∀ kw ∈ kws, kw ≠ k → 2 ≤ levenshteinDistance input kw) →
      2 ≤ bestDist → bestDist ≤ 3 →
      skLoop input kws best bestDist = k := by
  have hklen : k.length + 1 ≥ input.length ∧ input.length ≤ k.length + 1 ∧
      k.length ≤ input.length + 1 := by
    have hb := lev_length_bound input k
    rw [← levenshteinDistance_eq_lev, hk1] at hb
    omega
  intro kws
  induction kws with
  | nil => intro best bestDist hmem; exact absurd hmem (List.not_mem_nil k)
  | cons kw rest ih =>
    intro best bestDist hmem h hb2 hb3
    have hrest : ∀ kw2 ∈ rest, kw2 ≠ k → 2 ≤ levenshteinDistance input kw2 :=
      fun kw2 hm hne => h kw2 (List.mem_cons_of_mem kw hm) hne
    by_cases he : kw = k
    · subst he
      unfold skLoop
      have hns1 : ¬ kw.length ≤ 2 := by omega
      have hns2 : ¬ 2 < ((kw.length : Int) - (input.length : Int)).natAbs := by
        omega
      rw [if_neg hns1, if_neg hns2]
      show (if levenshteinDistance input kw ≤ 2 ∧ levenshteinDistance input kw < bestDist
          then skLoop input rest kw (levenshteinDistance input kw)
          else skLoop input rest best bestDist) = kw
      rw [if_pos (by rw [hk1]; omega), hk1]
      exact skLoop_locked input kw hk1 rest hrest
    · have hmem2 : k ∈ rest := by
        cases List.mem_cons.mp hmem with
        | inl hx => exact absurd hx.symm he
        | inr hx => exact hx
      unfold skLoop
      split_ifs with hs1 hs2
      · exact ih best bestDist hmem2 hrest hb2 hb3
      · exact ih best bestDist hmem2 hrest hb2 hb3
      · show (if levenshteinDistance input kw ≤ 2 ∧ levenshteinDistance input kw < bestDist
            then skLoop input rest kw (levenshteinDistance input kw)
            else skLoop input rest best bestDist) = k
        have hge := h kw (List.mem_cons_self kw rest) he
        by_cases hcond : levenshteinDistance input kw ≤ 2 ∧
            levenshteinDistance input kw < bestDist
        · rw [if_pos hcond]
          exact ih kw (levenshteinDistance input kw) hmem2 hrest (by omega)
            (by omega)
        · rw [if_neg hcond]
          exact ih best bestDist hmem2 hrest hb2 hb3

/-- If the normalized input is a non-keyword of length at least 4 at
distance 1 from keyword `k`, and every other keyword is at distance at
least 2, then `SuggestKeyword` answers `k`. -/
theorem suggestKeyword_unique (e k : Str) (hk : k ∈ cqlKeywords)
    (hlen : 4 ≤ (asciiUpper (trimSpace e)).length)
    (hnot : asciiUpper (trimSpace e) ∉ cqlKeywords)
    (hd : levenshteinDistance (asciiUpper (trimSpace e)) k = 1)
    (huniq : ∀ kw ∈ cqlKeywords, kw ≠ k →
      2 ≤ levenshteinDistance (asciiUpper (trimSpace e)) kw) :
    SuggestKeyword e = k := by
  unfold SuggestKeyword
  have hne : ¬ asciiUpper (trimSpace e) = [] := by
    intro h0
    rw [h0] at hlen
    simp at hlen
  rw [if_neg hne, if_neg (by omega), if_neg hnot]
  exact skLoop_finds _ k hd hlen cqlKeywords [] 3 hk huniq (by omega) (by omega)

end parse


namespace analyze

theorem ckScan_mem (wcs : List Str) :
    ∀ (cks : List Str) (fg : Bool) (w : Warning), w ∈ ckScan wcs cks fg →
      w.Typ = WarningType.missing_clustering_key ∧
      w.Severity = Severity.warning := by
  intro cks
  induction cks with
  | nil =>
    intro fg w h
    simp [ckScan] at h
  | cons c cks ih =>
    intro fg w h
    unfold ckScan at h
    split_ifs at h with h1 h2
    · rcases List.mem_cons.mp h with he | hm
      · subst he
        exact ⟨rfl, rfl⟩
      · exact ih fg w hm
    · exact ih fg w h
    · exact ih true w h

theorem ckScan_true_eq (wcs : List Str) :
    ∀ cks : List Str,
      ckScan wcs cks true =
        (cks.filter (fun c => wcs.contains (asciiLower c))).map ckWarnOf := by
  intro cks
  induction cks with
  | nil => simp [ckScan]
  | cons c cks ih =>
    unfold ckScan
    by_cases h : wcs.contains (asciiLower c)
    · rw [if_neg (not_not_intro h), if_pos rfl, ih, List.filter_cons,
        if_pos h]
      rfl
    · rw [if_pos h, ih, List.filter_cons, if_neg h]

theorem ckScan_false_eq (wcs : List Str) :
    ∀ cks : List Str,
      ckScan wcs cks false =
        (((cks.dropWhile (fun c => wcs.contains (asciiLower c))).tail).filter
          (fun c => wcs.contains (asciiLower c))).map ckWarnOf := by
  intro cks
  induction cks with
  | nil => simp [ckScan]
  | cons c cks ih =>
    unfold ckScan
    by_cases h : wcs.contains (asciiLower c)
    · rw [if_neg (not_not_intro h), if_neg (by simp), ih,
        List.dropWhile_cons, if_pos h]
    · rw [if_pos h, ckScan_true_eq, List.dropWhile_cons, if_neg h]
      rfl

theorem fcLoop_result (input : Str) :
    ∀ (cands : List Str) (best : Str) (bestDist : Nat),
      fcLoop input cands best bestDist = best ∨
      (fcLoop input cands best bestDist ∈ cands ∧
        levenshtein input (asciiLower (fcLoop input cands best bestDist)) <
          bestDist) := by
  intro cands
  induction cands with
  | nil => intro best bd; left; rfl
  | cons cand rest ih =>
    intro best bd
    unfold fcLoop
    by_cases h : levenshtein input (asciiLower cand) < bd
    · rw [if_pos h]
      rcases ih cand (levenshtein input (asciiLower cand)) with he | ⟨hm, hd⟩
      · right
        rw [he]
        exact ⟨List.mem_cons_self _ _, h⟩
      · right
        exact ⟨List.mem_cons_of_mem _ hm, by omega⟩
    · rw [if_neg h]
      rcases ih best bd with he | ⟨hm, hd⟩
      · left; exact he
      · right
        exact ⟨List.mem_cons_of_mem _ hm, hd⟩

theorem fcLoop_none (input : Str) :
    ∀ (cands : List Str) (best : Str) (bestDist : Nat),
      (∀ c ∈ cands, bestDist ≤ levenshtein input (asciiLower c)) →
      fcLoop input cands best bestDist = best := by
  intro cands
  induction cands with
  | nil => intro best bd _; rfl
  | cons cand rest ih =>
    intro best bd h
    unfold fcLoop
    rw [if_neg (by have := h cand (List.mem_cons_self cand rest); omega)]
    exact ih best bd (fun c hc => h c (List.mem_cons_of_mem _ hc))

end analyze

theorem lookup_eq_none_of {α : Type} (m : List (Str × α)) (k : Str)
    (h : ∀ p ∈ m, p.1 ≠ k) : List.lookup k m = none := by
  induction m with
  | nil => rfl
  | cons p rest ih =>
    obtain ⟨a, b⟩ := p
    have hne : a ≠ k := h (a, b) (List.mem_cons_self _ _)
    have hb : (k == a) = false :=
      beq_eq_false_iff_ne.mpr (fun he => hne he.symm)
    rw [List.lookup_cons, hb]
    exact ih (fun q hq => h q (List.mem_cons_of_mem _ hq))

/-- C5: the Levenshtein distance of pkg/parse/levenshtein.go is
symmetric, zero exactly on equal strings, and satisfies the triangle
inequality; `distance("FORM","FROM") = 2` and
`distance("kitten","sitting") = 3`. -/
theorem c5_levenshtein_metric :
    (∀ a b : Str,
      parse.levenshteinDistance a b = parse.levenshteinDistance b a) ∧
    (∀ a b : Str, parse.levenshteinDistance a b = 0 ↔ a = b) ∧
    (∀ a b c : Str,
      parse.levenshteinDistance a c ≤
        parse.levenshteinDistance a b + parse.levenshteinDistance b c) ∧
    parse.levenshteinDistance (str "FORM") (str "FROM") = 2 ∧
    parse.levenshteinDistance (str "kitten") (str "sitting") = 3 :=
  ⟨parse.levenshteinDistance_comm, parse.levenshteinDistance_eq_zero_iff,
   parse.levenshteinDistance_triangle, by decide, by decide⟩

/-- C10: `SuggestKeyword` answers the empty string for every input
whose whitespace-trimmed form is shorter than 4 characters — the length
cutoff applies to the input itself, regardless of how close the input
is to any keyword. -/
theorem c10_short_input_no_suggestion :
    ∀ s : Str, (trimSpace s).length < 4 → parse.SuggestKeyword s = [] := by
  intro s h
  unfold parse.SuggestKeyword
  have hl : (asciiUpper (trimSpace s)).length = (trimSpace s).length :=
    List.length_map _ _
  by_cases he : asciiUpper (trimSpace s) = []
  · rw [if_pos he]
  · rw [if_neg he, if_pos (by omega)]

/-- C10 witness: `FRM` is within distance 2 of the keyword `FROM`, yet
its trimmed length 3 yields no suggestion. -/
theorem c10_witness :
    (trimSpace (str "FRM")).length < 4 ∧
    parse.SuggestKeyword (str "FRM") = [] ∧
    parse.levenshteinDistance (str "FRM") (str "FROM") ≤ 2 :=
  ⟨by decide, c10_short_input_no_suggestion (str "FRM") (by decide),
   by decide⟩

/-- C3: `count()` with zero arguments and no star is rejected as
`function_arg_count`; `count(*)` and `count(col)` pass; any call whose
name the builtin signature table does not contain is never rejected. -/
theorem c3_function_arg_validation :
    ∀ call : analyze.FunctionCall,
      analyze.builtinFunctions call.Name = none →
      analyze.validateFunctionCall call = none ∧
      analyze.validateFunctionCall ⟨str "count", 0, false, none⟩ =
        some ⟨analyze.SchemaErrorType.function_arg_count,
          str "count() takes 1 argument(s), got 0", [], str "count", none⟩ ∧
      analyze.validateFunctionCall ⟨str "count", 1, true, none⟩ = none ∧
      analyze.validateFunctionCall ⟨str "count", 1, false, none⟩ = none := by
  intro call h
  refine ⟨?_, by decide, by decide, by decide⟩
  unfold analyze.validateFunctionCall
  rw [h]

/-- C3 witness: a user-defined function name passes unconditionally. -/
theorem c3_witness :
    analyze.builtinFunctions (str "myudf") = none ∧
    analyze.validateFunctionCall ⟨str "myudf", 3, false, none⟩ = none :=
  ⟨by decide,
   (c3_function_arg_validation ⟨str "myudf", 3, false, none⟩ (by decide)).1⟩

/-- C7: when none of the three error-message extraction patterns
matches the raw message, the suggestion is computed by the fallback
scan over the whitespace-split words of the query; in particular a
query with the misspelled keyword `SELCT` and an unextractable raw
message still produces `Did you mean SELECT`. -/
theorem c7_query_word_fallback :
    ∀ msg q : Str,
      parse.captureAfter (str "mismatched input " ++ [sqc]) msg = none →
      parse.captureAfter (str "extraneous input " ++ [sqc]) msg = none →
      parse.captureAfter (str "no viable alternative at input " ++ [sqc])
          msg = none →
      parse.suggestKeywordFromError msg q =
        parse.scanQueryWords (parse.fields q) ∧
      parse.suggestKeywordFromError (str "unexpected token")
        (str "SELCT * FROM users;") = didYouMean (str "SELECT") := by
  intro msg q h1 h2 h3
  refine ⟨?_, by decide⟩
  unfold parse.suggestKeywordFromError
  rw [h1, h2, h3]
  simp

/-- C7 witness: the concrete fallback instance. -/
theorem c7_witness :
    parse.suggestKeywordFromError (str "unexpected token")
      (str "SELCT * FROM users;") = didYouMean (str "SELECT") :=
  (c7_query_word_fallback (str "unexpected token")
    (str "SELCT * FROM users;") (by decide) (by decide) (by decide)).2

/-- C9: every schema lookup is nil/absent-safe: a nil receiver, a nil
internal map, or a missing key all answer `none` for `GetKeyspace`,
`GetTable` and `GetColumn`. -/
theorem c9_lookup_nil_safety :
    (∀ name : Str, cqlschema.Schema.GetKeyspace none name = none) ∧
    (∀ (sc : cqlschema.Schema) (name : Str), sc.Keyspaces = none →
      cqlschema.Schema.GetKeyspace (some sc) name = none) ∧
    (∀ (sc : cqlschema.Schema) (m : List (Str × cqlschema.Keyspace))
        (name : Str),
      sc.Keyspaces = some m → (∀ p ∈ m, p.1 ≠ name) →
      cqlschema.Schema.GetKeyspace (some sc) name = none) ∧
    (∀ name : Str, cqlschema.Keyspace.GetTable none name = none) ∧
    (∀ (ks : cqlschema.Keyspace) (name : Str), ks.Tables = none →
      cqlschema.Keyspace.GetTable (some ks) name = none) ∧
    (∀ (ks : cqlschema.Keyspace) (m : List (Str × cqlschema.Table))
        (name : Str),
      ks.Tables = some m → (∀ p ∈ m, p.1 ≠ name) →
      cqlschema.Keyspace.GetTable (some ks) name = none) ∧
    (∀ name : Str, cqlschema.Table.GetColumn none name = none) ∧
    (∀ (t : cqlschema.Table) (name : Str), t.Columns = none →
      cqlschema.Table.GetColumn (some t) name = none) ∧
    (∀ (t : cqlschema.Table) (m : List (Str × cqlschema.Column))
        (name : Str),
      t.Columns = some m → (∀ p ∈ m, p.1 ≠ name) →
      cqlschema.Table.GetColumn (some t) name = none) := by
  refine ⟨fun name => rfl, ?_, ?_, fun name => rfl, ?_, ?_,
    fun name => rfl, ?_, ?_⟩
  · intro sc name h
    simp [cqlschema.Schema.GetKeyspace, h]
  · intro sc m name h hp
    simp only [cqlschema.Schema.GetKeyspace, h]
    exact lookup_eq_none_of m name hp
  · intro ks name h
    simp [cqlschema.Keyspace.GetTable, h]
  · intro ks m name h hp
    simp only [cqlschema.Keyspace.GetTable, h]
    exact lookup_eq_none_of m name hp
  · intro t name h
    simp [cqlschema.Table.GetColumn, h]
  · intro t m name h hp
    simp only [cqlschema.Table.GetColumn, h]
    exact lookup_eq_none_of m name hp

/-- C9 witness: concrete absent lookups on a nil schema, a keyspace
with a nil table map, and the example table. -/
theorem c9_witness :
    cqlschema.Schema.GetKeyspace none (str "ks") = none ∧
    cqlschema.Keyspace.GetTable (some ⟨str "k", none⟩) (str "t") = none ∧
    cqlschema.Table.GetColumn (some fixtures.usersTable) (str "missing") =
      none :=
  ⟨c9_lookup_nil_safety.1 (str "ks"),
   c9_lookup_nil_safety.2.2.2.2.1 ⟨str "k", none⟩ (str "t") rfl,
   c9_lookup_nil_safety.2.2.2.2.2.2.2.2 fixtures.usersTable
     [(str "id", fixtures.idCol), (str "name", fixtures.nameCol)]
     (str "missing") rfl (by decide)⟩

/-- C1: for DML statements other than INSERT, every partition-key
column must appear case-insensitively among the WHERE columns; when
some are missing exactly one `missing_partition_key` finding (severity
error) is emitted, its message listing the missing names and its
suggestion distinguishing all-missing from some-missing; the two spec
examples over the `ks.users` schema behave as stated. -/
theorem c1_partition_key_completeness :
    (∀ (refs : analyze.References) (tbl : cqlschema.Table),
      (analyze.validatePartitionKey refs tbl).filter
          (fun w => w.Typ == analyze.WarningType.missing_partition_key) =
        if analyze.missingPKOf refs tbl = [] then []
        else
          [⟨analyze.WarningType.missing_partition_key,
            analyze.Severity.error,
            str "Query is missing partition key column(s): " ++
              List.intercalate (str ", ") (analyze.missingPKOf refs tbl),
            (if (analyze.missingPKOf refs tbl).length =
                tbl.PartitionKey.length then
              str "Add partition key columns to WHERE clause or use ALLOW FILTERING"
            else str "All partition key columns must be specified"),
            none⟩]) ∧
    (∀ (refs : analyze.References) (tbl : cqlschema.Table),
      analyze.missingPKOf refs tbl = [] ↔
        ∀ pk ∈ tbl.PartitionKey,
          (analyze.whereColSetOf refs).contains (asciiLower pk) = true) ∧
    analyze.analyzeRefs fixtures.refsWhereName
        ctypes.StatementType.StatementSelect fixtures.usersOpts =
      ([], [⟨analyze.WarningType.missing_partition_key,
         analyze.Severity.error,
         str "Query is missing partition key column(s): id",
         str "Add partition key columns to WHERE clause or use ALLOW FILTERING",
         none⟩]) ∧
    analyze.analyzeRefs fixtures.refsWhereId
        ctypes.StatementType.StatementSelect fixtures.usersOpts = ([], []) := by
  refine ⟨?_, ?_, by decide, by decide⟩
  · intro refs tbl
    unfold analyze.validatePartitionKey
    rw [List.filter_append]
    by_cases hm : analyze.missingPKOf refs tbl = []
    · rw [if_pos hm, if_neg (not_not_intro hm)]
      simp only [List.filter_nil, List.nil_append]
      by_cases hck : tbl.ClusteringKey ≠ [] ∧ analyze.missingPKOf refs tbl = []
      · rw [if_pos hck, List.filter_eq_nil_iff]
        intro w hw
        unfold analyze.validateClusteringKeyOrder at hw
        have ht := (analyze.ckScan_mem _ _ _ w hw).1
        simp [ht]
      · rw [if_neg hck]
        rfl
    · rw [if_neg hm, if_pos hm,
        if_neg (show ¬(tbl.ClusteringKey ≠ [] ∧
          analyze.missingPKOf refs tbl = []) from fun hc => hm hc.2)]
      simp only [List.filter_nil, List.append_nil]
      split_ifs with hl <;> simp [List.filter_cons]
  · intro refs tbl
    unfold analyze.missingPKOf
    rw [List.filter_eq_nil_iff]
    constructor
    · intro h pk hpk
      have := h pk hpk
      simpa using this
    · intro h pk hpk
      simpa using h pk hpk

/-- C2: the clustering-key check runs only when the partition key is
complete; every finding it produces is a `missing_clustering_key`
warning (not an error); the scan warns exactly the clustering columns
present in the WHERE set after the first absent one; with clustering
keys `(a,b,c)`, restricting `a` and `c` warns about `c` and restricting
`a` and `b` warns nothing. -/
theorem c2_clustering_key_gap :
    (∀ (refs : analyze.References) (tbl : cqlschema.Table),
      (analyze.validatePartitionKey refs tbl).filter
          (fun w => w.Typ == analyze.WarningType.missing_clustering_key) =
        if tbl.ClusteringKey ≠ [] ∧ analyze.missingPKOf refs tbl = [] then
          analyze.validateClusteringKeyOrder tbl (analyze.whereColSetOf refs)
        else []) ∧
    (∀ (wcs cks : List Str) (fg : Bool),
      (analyze.ckScan wcs cks fg).all
        (fun w => w.Typ == analyze.WarningType.missing_clustering_key &&
          w.Severity == analyze.Severity.warning) = true) ∧
    (∀ wcs cks : List Str,
      analyze.ckScan wcs cks false =
        (((cks.dropWhile (fun c => wcs.contains (asciiLower c))).tail).filter
          (fun c => wcs.contains (asciiLower c))).map analyze.ckWarnOf) ∧
    analyze.validatePartitionKey fixtures.refsAC fixtures.ckTable =
      [analyze.ckWarnOf (str "c")] ∧
    analyze.validatePartitionKey fixtures.refsAB fixtures.ckTable = [] := by
  refine ⟨?_, ?_, fun wcs cks => analyze.ckScan_false_eq wcs cks,
    by decide, by decide⟩
  · intro refs tbl
    unfold analyze.validatePartitionKey
    rw [List.filter_append]
    by_cases hm : analyze.missingPKOf refs tbl = []
    · rw [if_neg (not_not_intro hm)]
      simp only [List.filter_nil, List.nil_append]
      by_cases hck : tbl.ClusteringKey ≠ [] ∧ analyze.missingPKOf refs tbl = []
      · rw [if_pos hck, List.filter_eq_self]
        intro w hw
        unfold analyze.validateClusteringKeyOrder at hw
        have ht := (analyze.ckScan_mem _ _ _ w hw).1
        simp [ht]
      · rw [if_neg hck]
        rfl
    · rw [if_pos hm,
        if_neg (show ¬(tbl.ClusteringKey ≠ [] ∧
          analyze.missingPKOf refs tbl = []) from fun hc => hm hc.2)]
      simp only [List.filter_nil, List.append_nil]
      split_ifs with hl <;> simp [List.filter_cons]
  · intro wcs cks fg
    rw [List.all_eq_true]
    intro w hw
    have h := analyze.ckScan_mem wcs cks fg w hw
    simp [h.1, h.2]

/-- C4 counterexample: with sole keyspace `bbb` and unknown keyspace
`aaa` at edit distance exactly 3, the `unknown_keyspace` error carries
no suggestion, so a name within distance 3 is not suggested. -/
theorem c4_counterexample :
    analyze.levenshtein (str "aaa") (str "bbb") = 3 ∧
    cqlschema.Schema.KeyspaceNames (some fixtures.bbbSchema) =
      [str "bbb"] ∧
    analyze.validateSchema fixtures.refsAaa
        ctypes.StatementType.StatementSelect (some fixtures.bbbSchema) [] =
      ([⟨analyze.SchemaErrorType.unknown_keyspace,
         str "Keyspace " ++ [sqc] ++ str "aaa" ++ [sqc] ++
           str " does not exist",
         [], str "aaa", none⟩], []) :=
  ⟨by decide, by decide, by decide⟩

/-- C4 amended: an unresolved explicit keyspace yields a single
`unknown_keyspace` error carrying the `suggestKeyspace` suggestion and
no further checks run; the closest-name search suggests only candidates
at Levenshtein distance at most 2 (strictly below the threshold
constant 3) and never any candidate at distance 3 or more. -/
theorem c4_unknown_keyspace_amended :
    ∀ (refs : analyze.References) (stmtType : ctypes.StatementType)
      (s : Option cqlschema.Schema) (dk : Str),
      refs.Keyspace ≠ [] →
      cqlschema.Schema.GetKeyspace s refs.Keyspace = none →
      (analyze.validateSchema refs stmtType s dk =
         ([⟨analyze.SchemaErrorType.unknown_keyspace,
            str "Keyspace " ++ [sqc] ++ refs.Keyspace ++ [sqc] ++
              str " does not exist",
            analyze.suggestKeyspace s refs.Keyspace, refs.Keyspace,
            none⟩], []) ∧
       (∀ (input : Str) (cands : List Str),
          analyze.findClosest input cands ≠ [] →
          analyze.findClosest input cands ∈ cands ∧
          analyze.levenshtein (asciiLower input)
            (asciiLower (analyze.findClosest input cands)) ≤ 2) ∧
       (∀ (input : Str) (cands : List Str),
          (∀ c ∈ cands,
            3 ≤ analyze.levenshtein (asciiLower input) (asciiLower c)) →
          analyze.findClosest input cands = [])) := by
  intro refs stmtType s dk hk hget
  refine ⟨?_, ?_, ?_⟩
  · unfold analyze.validateSchema
    rw [if_pos hk, hget]
  · intro input cands hne
    unfold analyze.findClosest at hne ⊢
    rcases analyze.fcLoop_result (asciiLower input) cands [] 3 with he | ⟨hm, hd⟩
    · exact absurd he hne
    · exact ⟨hm, by omega⟩
  · intro input cands h
    unfold analyze.findClosest
    exact analyze.fcLoop_none (asciiLower input) cands [] 3
      (fun c hc => h c hc)

/-- C4 witness: the unknown keyspace `aaa` over the `bbb` schema. -/
theorem c4_witness :
    analyze.validateSchema fixtures.refsAaa
        ctypes.StatementType.StatementSelect (some fixtures.bbbSchema) [] =
      ([⟨analyze.SchemaErrorType.unknown_keyspace,
         str "Keyspace " ++ [sqc] ++ str "aaa" ++ [sqc] ++
           str " does not exist",
         analyze.suggestKeyspace (some fixtures.bbbSchema) (str "aaa"),
         str "aaa", none⟩], []) :=
  (c4_unknown_keyspace_amended fixtures.refsAaa
    ctypes.StatementType.StatementSelect (some fixtures.bbbSchema) []
    (by decide) (by decide)).1

/-- C6 counterexample: `ROM` is a single deletion away from the
keyword `FROM` (length 4) and is not itself a keyword, yet
`SuggestKeyword` answers the empty string, not `FROM`. -/
theorem c6_counterexample :
    (str "FROM") ∈ parse.cqlKeywords ∧ 4 ≤ (str "FROM").length ∧
    parse.EStep (str "FROM") (str "ROM") ∧
    (str "ROM") ∉ parse.cqlKeywords ∧
    parse.SuggestKeyword (str "ROM") = [] ∧ ([] : Str) ≠ str "FROM" := by
  refine ⟨by decide, by decide, ?_, by decide, by decide, by decide⟩
  exact parse.EStep.del 'F' (str "ROM")

/-- C6 amended: a single-character edit of a keyword `k` of length at
least 4 is suggested back as `k` provided the normalized edit still has
length at least 4, is not itself a keyword, and no other keyword is
within distance 1 of it. -/
theorem c6_single_edit_suggestion :
    ∀ e k : Str, k ∈ parse.cqlKeywords → 4 ≤ k.length →
      parse.EStep k (asciiUpper (trimSpace e)) →
      4 ≤ (asciiUpper (trimSpace e)).length →
      asciiUpper (trimSpace e) ∉ parse.cqlKeywords →
      (∀ kw ∈ parse.cqlKeywords, kw ≠ k →
        2 ≤ parse.levenshteinDistance (asciiUpper (trimSpace e)) kw) →
      parse.SuggestKeyword e = k := by
  intro e k hk hklen hedit hlen hnot huniq
  have hd : parse.levenshteinDistance (asciiUpper (trimSpace e)) k = 1 := by
    have hle : parse.lev k (asciiUpper (trimSpace e)) ≤ 1 :=
      parse.chain_lev_le (parse.Chain.step hedit (parse.Chain.refl _))
    have hne : asciiUpper (trimSpace e) ≠ k := fun h => hnot (h ▸ hk)
    have hz : parse.lev k (asciiUpper (trimSpace e)) ≠ 0 := by
      intro h0
      exact hne ((parse.lev_eq_zero_iff _ _).mp h0).symm
    rw [parse.levenshteinDistance_eq_lev, parse.lev_comm]
    omega
  exact parse.suggestKeyword_unique e k hk hlen hnot hd huniq

/-- C6 witness: `SELEC` (deleting the final `T` of `SELECT`) suggests
`SELECT`. -/
theorem c6_witness : parse.SuggestKeyword (str "SELEC") = str "SELECT" := by
  have hu : asciiUpper (trimSpace (str "SELEC")) = str "SELEC" := by decide
  refine c6_single_edit_suggestion (str "SELEC") (str "SELECT") (by decide)
    (by decide) ?_ (by decide) (by decide) (by decide)
  rw [hu]
  have h2 : str "SELECT" = str "SELEC" ++ [Char.ofNat 84] := by decide
  rw [h2]
  exact parse.estep_del_last (str "SELEC") (Char.ofNat 84)

/-- C8 counterexample: a plain identifier (`OBJECT_NAME`) immediately
followed by an opening parenthesis is classified as identifier, not
function. -/
theorem c8_counterexample :
    trimSpace ((str "myfunc(1)").drop (5 + 1)) ≠ [] ∧
    (trimSpace ((str "myfunc(1)").drop (5 + 1))).headD ' ' = '(' ∧
    tokenize.classifyANTLRToken tokenize.ALexType.OBJECT_NAME false
      (str "myfunc") (str "myfunc(1)") 5 none none none =
      tokenize.TokenType.identifier ∧
    tokenize.TokenType.identifier ≠ tokenize.TokenType.function :=
  ⟨by decide, by decide, by decide, by decide⟩

/-- C8 amended: a default-channel token whose lexical type is a keyword
token (reserved or non-reserved, the `K_*` range) or any other type
reaching the parenthesis check — but not `OBJECT_NAME` — is classified
as function whenever its text is followed, after optional whitespace,
by an opening parenthesis. -/
theorem c8_paren_function :
    ∀ (tokType : tokenize.ALexType) (text input : Str) (stop : Nat)
      (pk ck cols : Option (List Str)),
      (tokType = tokenize.ALexType.K_TOKEN ∨
        tokType = tokenize.ALexType.OTHER) →
      trimSpace (input.drop (stop + 1)) ≠ [] →
      (trimSpace (input.drop (stop + 1))).headD ' ' = '(' →
      tokenize.classifyANTLRToken tokType false text input stop pk ck cols =
        tokenize.TokenType.function := by
  intro tokType text input stop pk ck cols ht h1 h2
  rcases ht with h | h <;> subst h <;>
    (simp [tokenize.classifyANTLRToken, h1]
     intro hcon
     exact absurd (by simpa using h2) hcon)

/-- C8 witness: the non-reserved keyword token `count` followed by `(`
is classified as function. -/
theorem c8_witness :
    tokenize.classifyANTLRToken tokenize.ALexType.K_TOKEN false
      (str "count") (str "count(1)") 4 none none none =
      tokenize.TokenType.function :=
  c8_paren_function tokenize.ALexType.K_TOKEN (str "count")
    (str "count(1)") 4 none none none (Or.inl rfl) (by decide) (by decide)
